import Mathlib

/-!
Verification of the xstocks-fun intel microservice against its specification.

Shallow embedding of `src/intel-microservice/python-yfinance-service/main.py`
and `src/intel-microservice/python-yfinance-service/portfolio_analytics.py`.

Numeric Python floats are modelled as real numbers (`ℝ`) where transcendental
functions occur (Black-Scholes Greeks, backtest engine) and as rationals (`ℚ`)
where only field operations occur (cache timestamps, indicators, weights), so
that witnesses can be evaluated.  `scipy.stats.norm.cdf`/`norm.pdf` are
modelled by the exact standard normal CDF/PDF via `ProbabilityTheory.gaussianPDFReal`.
-/

open MeasureTheory ProbabilityTheory

/-! ## Standard normal CDF (model of scipy.stats.norm.cdf / norm.pdf) -/

/-- Model of `scipy.stats.norm.pdf`: the standard normal density. -/
noncomputable def normPdf (x : ℝ) : ℝ := gaussianPDFReal 0 1 x

/-- Model of `scipy.stats.norm.cdf`: the standard normal cumulative
distribution function, as the integral of the density over `Iic x`. -/
noncomputable def normCdf (x : ℝ) : ℝ := ∫ t in Set.Iic x, gaussianPDFReal 0 1 t

/-! ## Black-Scholes Greeks (main.py lines 48-137)

`calculate_days_to_expiration` parses an expiration date string with
`datetime.strptime` and subtracts `datetime.now()`.  The embedding takes
the result of that external parse/subtraction as `Option ℤ`: `some days`
when the string parses (`days` may be negative), `none` when parsing
raises (the `except` branch returning 30/365). -/

inductive OptType
| call
| put

/-- Embedding of `calculate_days_to_expiration` (main.py:48-55). -/
noncomputable def calculate_days_to_expiration (parsedDays : Option ℤ) : ℝ :=
  match parsedDays with
  | some days => ((max 1 days : ℤ) : ℝ) / 365
  | none => 30 / 365

/-- Embedding of `calculate_delta` (main.py:57-80).  The second guard models
the `except` branch: `math.log(S / K)` raises for a nonpositive argument
(`S / K ≤ 0` also covers `K = 0`, where Python raises ZeroDivisionError and
Lean division returns 0), and the handler returns the same sentinel. -/
noncomputable def calculate_delta (S K sigma : ℝ) (expirationDays : Option ℤ)
    (optionType : OptType) : ℝ :=
  let T := calculate_days_to_expiration expirationDays
  let r : ℝ := 0.05
  if sigma ≤ 0 ∨ T ≤ 0 then
    match optionType with
    | .call => 0.5
    | .put => -0.5
  else if S / K ≤ 0 then
    match optionType with
    | .call => 0.5
    | .put => -0.5
  else
    let d1 := (Real.log (S / K) + (r + 0.5 * sigma ^ 2) * T) / (sigma * Real.sqrt T)
    match optionType with
    | .call => normCdf d1
    | .put => normCdf d1 - 1

/-- Embedding of `calculate_gamma` (main.py:82-97), with the same
except-branch guard as `calculate_delta`. -/
noncomputable def calculate_gamma (S K sigma : ℝ) (expirationDays : Option ℤ) : ℝ :=
  let T := calculate_days_to_expiration expirationDays
  let r : ℝ := 0.05
  if sigma ≤ 0 ∨ T ≤ 0 then 0.001
  else if S / K ≤ 0 then 0.001
  else
    let d1 := (Real.log (S / K) + (r + 0.5 * sigma ^ 2) * T) / (sigma * Real.sqrt T)
    max (normPdf d1 / (S * sigma * Real.sqrt T)) 0.0001

/-- Embedding of `calculate_theta` (main.py:99-120). -/
noncomputable def calculate_theta (S K sigma : ℝ) (expirationDays : Option ℤ)
    (optionType : OptType) : ℝ :=
  let T := calculate_days_to_expiration expirationDays
  let r : ℝ := 0.05
  if sigma ≤ 0 ∨ T ≤ 0 then -0.05
  else if S / K ≤ 0 then -0.05
  else
    let d1 := (Real.log (S / K) + (r + 0.5 * sigma ^ 2) * T) / (sigma * Real.sqrt T)
    let d2 := d1 - sigma * Real.sqrt T
    match optionType with
    | .call =>
      (-S * normPdf d1 * sigma / (2 * Real.sqrt T)
        - r * K * Real.exp (-r * T) * normCdf d2) / 365
    | .put =>
      (-S * normPdf d1 * sigma / (2 * Real.sqrt T)
        + r * K * Real.exp (-r * T) * normCdf (-d2)) / 365

/-- Embedding of `calculate_vega` (main.py:122-137). -/
noncomputable def calculate_vega (S K sigma : ℝ) (expirationDays : Option ℤ) : ℝ :=
  let T := calculate_days_to_expiration expirationDays
  let r : ℝ := 0.05
  if sigma ≤ 0 ∨ T ≤ 0 then 0.01
  else if S / K ≤ 0 then 0.01
  else
    let d1 := (Real.log (S / K) + (r + 0.5 * sigma ^ 2) * T) / (sigma * Real.sqrt T)
    max (S * normPdf d1 * Real.sqrt T / 100) 0.001

/-! ## Cache layer (main.py lines 468-502)

Python values are modelled by `PyValue`; the JSON wire values produced by
`json.dumps` and consumed by `json.loads` are modelled by `Json`.  The
character-level encoding of the standard library is external; its semantic
effect — tuples become arrays, arrays come back as lists — is captured by
`toJson`/`fromJson`.  Timestamps (`time.time()`) and TTLs are rationals
(every float is a rational), keeping the cache operations executable. -/

inductive PyValue
| pyNone
| pyBool (b : Bool)
| pyInt (n : ℤ)
| pyStr (s : String)
| pyList (xs : List PyValue)
| pyTuple (xs : List PyValue)
| pyDict (kvs : List (String × PyValue))

inductive Json
| jNull
| jBool (b : Bool)
| jNum (n : ℤ)
| jStr (s : String)
| jArr (xs : List Json)
| jObj (kvs : List (String × Json))

mutual

/-- Semantic effect of `json.dumps` on a Python value: tuples and lists both
serialize as JSON arrays, dicts as objects. -/
def toJson : PyValue → Json
  | .pyNone => .jNull
  | .pyBool b => .jBool b
  | .pyInt n => .jNum n
  | .pyStr s => .jStr s
  | .pyList xs => .jArr (toJsonList xs)
  | .pyTuple xs => .jArr (toJsonList xs)
  | .pyDict kvs => .jObj (toJsonKvs kvs)

def toJsonList : List PyValue → List Json
  | [] => []
  | x :: xs => toJson x :: toJsonList xs

def toJsonKvs : List (String × PyValue) → List (String × Json)
  | [] => []
  | (k, v) :: xs => (k, toJson v) :: toJsonKvs xs

end

mutual

/-- Semantic effect of `json.loads`: JSON arrays come back as Python lists
(never tuples), objects as dicts. -/
def fromJson : Json → PyValue
  | .jNull => .pyNone
  | .jBool b => .pyBool b
  | .jNum n => .pyInt n
  | .jStr s => .pyStr s
  | .jArr xs => .pyList (fromJsonList xs)
  | .jObj kvs => .pyDict (fromJsonKvs kvs)

def fromJsonList : List Json → List PyValue
  | [] => []
  | x :: xs => fromJson x :: fromJsonList xs

def fromJsonKvs : List (String × Json) → List (String × PyValue)
  | [] => []
  | (k, v) :: xs => (k, fromJson v) :: fromJsonKvs xs

end

/-- Process state seen by `get_cache`/`set_cache`: the Redis client (a flag
`redisUp` modelling both "redis_client is None" and "the operation raised",
plus the backend's key-value store of serialized payloads) and the
`_memory_cache` dict mapping keys to `(data, expiration)` pairs. -/
structure CacheState where
  redisUp : Bool
  redisStore : String → Option Json
  memoryCache : String → Option (PyValue × ℚ)

/-- Embedding of `set_cache` (main.py:490-502): when Redis is available the
serialized value is stored there via `setex` and the function returns;
otherwise the raw value is stored in `_memory_cache` with expiration
`time.time() + ttl_seconds`. -/
def set_cache (st : CacheState) (now : ℚ) (key : String) (data : PyValue)
    (ttlSeconds : ℚ) : CacheState :=
  if st.redisUp then
    { st with redisStore := fun k => if k = key then some (toJson data) else st.redisStore k }
  else
    { st with memoryCache :=
        fun k => if k = key then some (data, now + ttlSeconds) else st.memoryCache k }

/-- Embedding of `get_cache` (main.py:469-488), returning the value (misses
yield `pyNone`, exactly as the Python function returns `None`) together with
the possibly-updated state (expired in-memory entries are deleted on read).
A Redis hit returns `json.loads` of the stored string; a Redis miss falls
through to the in-memory check. -/
def get_cache (st : CacheState) (now : ℚ) (key : String) : PyValue × CacheState :=
  match (if st.redisUp then st.redisStore key else none) with
  | some cached => (fromJson cached, st)
  | none =>
    match st.memoryCache key with
    | some (data, expiration) =>
      if now < expiration then (data, st)
      else (.pyNone, { st with memoryCache :=
        fun k => if k = key then none else st.memoryCache k })
    | none => (.pyNone, st)

/-! ## Technical indicators (main.py lines 588-616)

A chart dataframe row is a `(timestamp, close)` pair; closes are rationals.
`rollingMean closes w i` is the pandas `rolling(window=w).mean()` value at
positional index `i`: `none` models NaN (window not yet full). -/

def rollingMean (closes : List ℚ) (window : ℕ) (i : ℕ) : Option ℚ :=
  if window ≤ i + 1 then
    some (((closes.drop (i + 1 - window)).take window).sum / window)
  else none

/-- Embedding of `calculate_sma` (main.py:588-598): rolling mean over the
Close column, emitting `(time, value)` points and skipping NaN entries. -/
def calculate_sma (data : List (ℤ × ℚ)) (period : ℕ) : List (ℤ × ℚ) :=
  (List.range data.length).filterMap fun i =>
    (rollingMean (data.map Prod.snd) period i).map
      fun v => ((data.map Prod.fst).getD i 0, v)

/-- Pairwise differences `close[i] - close[i-1]`, the non-NaN part of
`data['Close'].diff()`; entry `j` is the delta at original index `j + 1`. -/
def diffs (closes : List ℚ) : List ℚ :=
  (closes.zip closes.tail).map fun p => p.2 - p.1

/-- The RSI value at positional index `i`, following IEEE float semantics of
`rs = gain / loss; rsi = 100 - 100 / (1 + rs)`: when the average loss is 0
and the average gain is positive, `rs = +inf` and the expression evaluates
to 100; when both are 0, `rs = NaN` and the point is filtered out (`none`).
`delta.where(delta > 0, 0)` maps the NaN that `diff()` leaves at index 0 to
0 (NaN comparisons are False), so the delta series is `0 :: diffs closes`
and the rolling window is full (non-NaN) from `i = period - 1` onward. -/
def rsiAt (closes : List ℚ) (period : ℕ) (i : ℕ) : Option ℚ :=
  if period ≤ i + 1 then
    let ds := (((0 : ℚ) :: diffs closes).drop (i + 1 - period)).take period
    let gain := (ds.map fun d => if 0 < d then d else 0).sum / period
    let loss := (ds.map fun d => if d < 0 then -d else 0).sum / period
    if loss = 0 then (if gain = 0 then none else some 100)
    else some (100 - 100 / (1 + gain / loss))
  else none

/-- Embedding of `calculate_rsi` (main.py:600-616). -/
def calculate_rsi (data : List (ℤ × ℚ)) (period : ℕ) : List (ℤ × ℚ) :=
  (List.range data.length).filterMap fun i =>
    (rsiAt (data.map Prod.snd) period i).map
      fun v => ((data.map Prod.fst).getD i 0, v)

/-! ## Portfolio weight handling (portfolio_analytics.py lines 177-189)

The weight-handling step of `calculate_portfolio_metrics`: weights within
0.01 of summing to 1 are used unchanged; otherwise each weight is divided
by the total (logging a warning, returned here as the `Bool` component).
Python float division `v / total_weight` raises ZeroDivisionError when the
total is 0 and the dict is nonempty; the `Except` error models that. -/

def weightHandling (portfolioWeights : List (String × ℚ)) :
    Except Unit (List (String × ℚ) × Bool) :=
  let totalWeight := (portfolioWeights.map Prod.snd).sum
  if 0.01 < |totalWeight - 1| then
    if totalWeight = 0 ∧ portfolioWeights ≠ [] then .error ()
    else .ok (portfolioWeights.map fun p => (p.1, p.2 / totalWeight), true)
  else .ok (portfolioWeights, false)

/-! ## Monte Carlo statistics (portfolio_analytics.py lines 468-506)

The simulation loop itself draws randomness (`np.random.randn`); its output
is abstracted as the `simulationPaths` argument, so the theorems quantify
over every possible completed simulation.  The numpy reductions are
modelled below (`np.percentile` with its default linear interpolation). -/

structure Bar where
  op : ℝ
  hi : ℝ
  lo : ℝ
  cl : ℝ
  vol : ℝ

abbrev Df := List (ℤ × Bar)

def dfDates (df : Df) : List ℤ := df.map Prod.fst

/-- `stock_data[sym].loc[current_date, 'Close']` when the date is present. -/
def dfCloseAt (df : Df) (date : ℤ) : Option ℝ :=
  (df.lookup date).map Bar.cl

/-- `stock_data[sym].loc[:current_date, 'Close']` (ascending index). -/
def closesUpTo (df : Df) (date : ℤ) : List ℝ :=
  (df.filter fun q => decide (q.1 ≤ date)).map fun q => q.2.cl

/-- `stock_data[sym].loc[:current_date, 'Close']` keeping the date index,
used by the pairs-trading branch where pandas aligns two series. -/
def closeSeriesUpTo (df : Df) (date : ℤ) : List (ℤ × ℝ) :=
  (df.filter fun q => decide (q.1 ≤ date)).map fun q => (q.1, q.2.cl)

/-- `stock_data[sym].loc[:current_date]` (full OHLCV rows). -/
def rowsUpTo (df : Df) (date : ℤ) : Df :=
  df.filter fun q => decide (q.1 ≤ date)

/-- `Series.tail(n)`. -/
def tailN (l : List α) (n : ℕ) : List α := l.drop (l.length - n)

noncomputable def listMean (l : List ℝ) : ℝ := l.sum / l.length

/-- pandas `Series.std()` (sample standard deviation, ddof=1), a real
number for series of length ≥ 2.  For a shorter series pandas yields NaN
(whose comparisons are all False); the expression here degenerates to 0
instead, so callers whose source branch has no `0 < std` guard must test
`2 ≤ length` themselves to reproduce the NaN no-trade behavior. -/
noncomputable def sampleStd (l : List ℝ) : ℝ :=
  Real.sqrt ((l.map fun x => (x - listMean l) ^ 2).sum / ((l.length : ℝ) - 1))

noncomputable def listMax (l : List ℝ) : ℝ := l.foldl max (l.headD 0)

noncomputable def listMin (l : List ℝ) : ℝ := l.foldl min (l.headD 0)

/-- Real-valued pairwise differences (`Series.diff()` without its leading NaN). -/
def rdiffs (l : List ℝ) : List ℝ := (l.zip l.tail).map fun p => p.2 - p.1

/-- One entry of the `trade_log`; `extra` holds the strategy-specific audit
fields (`z_score`, `rsi`, `momentum`, band/breakout levels, `pair_trade`). -/
structure TradeEntry where
  date : ℤ
  symbol : String
  action : String
  shares : ℤ
  price : ℝ
  total : ℝ
  extra : List (String × ℝ)

/-- The per-date mutable strategy state: `cash`, `positions`, `trade_log`. -/
structure TradeState where
  cash : ℝ
  positions : List (String × ℤ)
  tradeLog : List TradeEntry

def getPos (positions : List (String × ℤ)) (sym : String) : ℤ :=
  (positions.lookup sym).getD 0

def setPos (positions : List (String × ℤ)) (sym : String) (n : ℤ) :
    List (String × ℤ) :=
  positions.map fun p => if p.1 = sym then (p.1, n) else p

/-- Strategy 1, buy-and-hold (main.py:2317-2336): executed once on the first
day after warmup, allocating `cash * weight` per symbol in dict order. -/
noncomputable def stepBuyAndHold (stockData : List (String × Df)) (weights : List ℝ)
    (currentPrices : List (String × ℝ)) (date : ℤ) (ts : TradeState) : TradeState :=
  ((stockData.map Prod.fst).zip weights).foldl (fun ts p =>
    match currentPrices.lookup p.1 with
    | none => ts
    | some price =>
      if 0 < price then
        let allocation := ts.cash * p.2
        let sharesToBuy := ⌊allocation / price⌋
        if 0 < sharesToBuy then
          let cost := (sharesToBuy : ℝ) * price
          ⟨ts.cash - cost, setPos ts.positions p.1 sharesToBuy,
            ts.tradeLog ++ [⟨date, p.1, "BUY", sharesToBuy, price, cost, []⟩]⟩
        else ts
      else ts) ts

/-- Strategy 2, mean reversion (main.py:2338-2385): z-score of the current
price against the trailing `lookback_period` mean/std. -/
noncomputable def stepMeanReversion (stockData : List (String × Df))
    (lookbackPeriod : ℕ) (entryThreshold exitThreshold positionSize : ℝ)
    (currentPrices : List (String × ℝ)) (date : ℤ) (ts : TradeState) : TradeState :=
  stockData.foldl (fun ts p =>
    match currentPrices.lookup p.1 with
    | none => ts
    | some price =>
      let histSlice := tailN (closesUpTo p.2 date) lookbackPeriod
      if lookbackPeriod ≤ histSlice.length then
        let meanPrice := listMean histSlice
        let stdPrice := sampleStd histSlice
        if 0 < stdPrice then
          let z := (price - meanPrice) / stdPrice
          if z < entryThreshold ∧ getPos ts.positions p.1 = 0 then
            let sharesToBuy := ⌊ts.cash * positionSize / price⌋
            if 0 < sharesToBuy then
              let cost := (sharesToBuy : ℝ) * price
              if cost ≤ ts.cash then
                ⟨ts.cash - cost, setPos ts.positions p.1 sharesToBuy,
                  ts.tradeLog ++ [⟨date, p.1, "BUY", sharesToBuy, price, cost,
                    [("z_score", z)]⟩]⟩
              else ts
            else ts
          else if 0 < getPos ts.positions p.1 then
            if exitThreshold < z then
              let proceeds := (getPos ts.positions p.1 : ℝ) * price
              ⟨ts.cash + proceeds, setPos ts.positions p.1 0,
                ts.tradeLog ++ [⟨date, p.1, "SELL", getPos ts.positions p.1, price,
                  proceeds, [("z_score", z)]⟩]⟩
            else ts
          else ts
        else ts
      else ts) ts

/-- Strategy 3, momentum (main.py:2387-2435): rank trailing returns, hold
the top `position_size` fraction, rotating out the rest (stable descending
sort, as `sorted(..., reverse=True)`). -/
noncomputable def stepMomentum (stockData : List (String × Df)) (lookbackPeriod : ℕ)
    (positionSize : ℝ) (currentPrices : List (String × ℝ)) (date : ℤ)
    (ts : TradeState) : TradeState :=
  let momentumScores := stockData.filterMap fun p =>
    let histSlice := tailN (closesUpTo p.2 date) (lookbackPeriod + 1)
    if lookbackPeriod + 1 ≤ histSlice.length then
      some (p.1, (histSlice.getLastD 0 - histSlice.headD 0) / histSlice.headD 0)
    else none
  if momentumScores.isEmpty then ts
  else
    let sortedMomentum := momentumScores.mergeSort fun a b => decide (b.2 ≤ a.2)
    let numPositions := max 1 ⌊(sortedMomentum.length : ℝ) * positionSize⌋
    let topPerformers := (sortedMomentum.take numPositions.toNat).map Prod.fst
    let ts1 := stockData.foldl (fun ts p =>
      if 0 < getPos ts.positions p.1 ∧ p.1 ∉ topPerformers then
        match currentPrices.lookup p.1 with
        | none => ts
        | some price =>
          let proceeds := (getPos ts.positions p.1 : ℝ) * price
          ⟨ts.cash + proceeds, setPos ts.positions p.1 0,
            ts.tradeLog ++ [⟨date, p.1, "SELL", getPos ts.positions p.1, price,
              proceeds, []⟩]⟩
      else ts) ts
    topPerformers.foldl (fun ts sym =>
      match currentPrices.lookup sym with
      | none => ts
      | some price =>
        if getPos ts.positions sym = 0 then
          let sharesToBuy := ⌊ts.cash / (numPositions : ℝ) / price⌋
          if 0 < sharesToBuy then
            let cost := (sharesToBuy : ℝ) * price
            if cost ≤ ts.cash then
              ⟨ts.cash - cost, setPos ts.positions sym sharesToBuy,
                ts.tradeLog ++ [⟨date, sym, "BUY", sharesToBuy, price, cost,
                  [("momentum", (momentumScores.lookup sym).getD 0)]⟩]⟩
            else ts
          else ts
        else ts) ts1

/-- Strategy 4, RSI (main.py:2437-2485): 14-period rolling-mean RSI over the
trailing `lookback_period + 1` closes.  `diff()` leaves a NaN that
`where(...)` maps to 0, so the final rolling window is real once the
(lookback+1)-length delta series has at least 14 entries; when it is
shorter, or the average loss is 0, the NaN/inf comparisons are False and no
trade happens — both are covered by the guards below. -/
noncomputable def stepRsiStrategy (stockData : List (String × Df))
    (lookbackPeriod : ℕ) (positionSize : ℝ) (currentPrices : List (String × ℝ))
    (date : ℤ) (ts : TradeState) : TradeState :=
  stockData.foldl (fun ts p =>
    match currentPrices.lookup p.1 with
    | none => ts
    | some price =>
      let histSlice := tailN (closesUpTo p.2 date) (lookbackPeriod + 1)
      if lookbackPeriod + 1 ≤ histSlice.length then
        let paddedDeltas := (0 : ℝ) :: rdiffs histSlice
        if 14 ≤ paddedDeltas.length then
          let window := tailN paddedDeltas 14
          let gainLast := listMean (window.map fun d => if 0 < d then d else 0)
          let lossLast := listMean (window.map fun d => if d < 0 then -d else 0)
          if lossLast ≠ 0 then
            let rs := gainLast / lossLast
            let rsiVal := 100 - 100 / (1 + rs)
            if rsiVal < 30 ∧ getPos ts.positions p.1 = 0 then
              let sharesToBuy := ⌊ts.cash * positionSize / price⌋
              if 0 < sharesToBuy then
                let cost := (sharesToBuy : ℝ) * price
                if cost ≤ ts.cash then
                  ⟨ts.cash - cost, setPos ts.positions p.1 sharesToBuy,
                    ts.tradeLog ++ [⟨date, p.1, "BUY", sharesToBuy, price, cost,
                      [("rsi", rsiVal)]⟩]⟩
                else ts
              else ts
            else if 70 < rsiVal ∧ 0 < getPos ts.positions p.1 then
              let proceeds := (getPos ts.positions p.1 : ℝ) * price
              ⟨ts.cash + proceeds, setPos ts.positions p.1 0,
                ts.tradeLog ++ [⟨date, p.1, "SELL", getPos ts.positions p.1, price,
                  proceeds, [("rsi", rsiVal)]⟩]⟩
            else ts
          else ts
        else ts
      else ts) ts

/-- Strategy 5, Bollinger Bands (main.py:2487-2532).  This branch of the
source has no `0 < std` guard: when the slice is shorter than 2
(`lookback_period ≤ 1`), `hist_slice.std()` is NaN, both band comparisons
are False and no trade happens — reproduced by the `2 ≤ length` test. -/
noncomputable def stepBollinger (stockData : List (String × Df))
    (lookbackPeriod : ℕ) (positionSize : ℝ) (currentPrices : List (String × ℝ))
    (date : ℤ) (ts : TradeState) : TradeState :=
  stockData.foldl (fun ts p =>
    match currentPrices.lookup p.1 with
    | none => ts
    | some price =>
      let histSlice := tailN (closesUpTo p.2 date) lookbackPeriod
      if lookbackPeriod ≤ histSlice.length then
        if 2 ≤ histSlice.length then
          let sma := listMean histSlice
          let std := sampleStd histSlice
          let upperBand := sma + 2 * std
          let lowerBand := sma - 2 * std
          if price ≤ lowerBand ∧ getPos ts.positions p.1 = 0 then
            let sharesToBuy := ⌊ts.cash * positionSize / price⌋
            if 0 < sharesToBuy then
              let cost := (sharesToBuy : ℝ) * price
              if cost ≤ ts.cash then
                ⟨ts.cash - cost, setPos ts.positions p.1 sharesToBuy,
                  ts.tradeLog ++ [⟨date, p.1, "BUY", sharesToBuy, price, cost,
                    [("lower_band", lowerBand)]⟩]⟩
              else ts
            else ts
          else if upperBand ≤ price ∧ 0 < getPos ts.positions p.1 then
            let proceeds := (getPos ts.positions p.1 : ℝ) * price
            ⟨ts.cash + proceeds, setPos ts.positions p.1 0,
              ts.tradeLog ++ [⟨date, p.1, "SELL", getPos ts.positions p.1, price,
                proceeds, [("upper_band", upperBand)]⟩]⟩
          else ts
        else ts
      else ts) ts

/-- Strategy 6, moving-average crossover (main.py:2534-2586): 10/50-period
golden/death cross detected against the previous day's averages. -/
noncomputable def stepMaCrossover (stockData : List (String × Df))
    (positionSize : ℝ) (currentPrices : List (String × ℝ)) (date : ℤ)
    (ts : TradeState) : TradeState :=
  stockData.foldl (fun ts p =>
    match currentPrices.lookup p.1 with
    | none => ts
    | some price =>
      let histSlice := closesUpTo p.2 date
      if 50 ≤ histSlice.length then
        let shortMa := listMean (tailN histSlice 10)
        let longMa := listMean (tailN histSlice 50)
        let prevShortMa := listMean ((tailN histSlice 11).take 10)
        let prevLongMa := listMean ((tailN histSlice 51).take 50)
        if prevShortMa ≤ prevLongMa ∧ longMa < shortMa ∧ getPos ts.positions p.1 = 0 then
          let sharesToBuy := ⌊ts.cash * positionSize / price⌋
          if 0 < sharesToBuy then
            let cost := (sharesToBuy : ℝ) * price
            if cost ≤ ts.cash then
              ⟨ts.cash - cost, setPos ts.positions p.1 sharesToBuy,
                ts.tradeLog ++ [⟨date, p.1, "BUY", sharesToBuy, price, cost,
                  [("short_ma", shortMa), ("long_ma", longMa)]⟩]⟩
            else ts
          else ts
        else if prevLongMa ≤ prevShortMa ∧ shortMa < longMa ∧ 0 < getPos ts.positions p.1 then
          let proceeds := (getPos ts.positions p.1 : ℝ) * price
          ⟨ts.cash + proceeds, setPos ts.positions p.1 0,
            ts.tradeLog ++ [⟨date, p.1, "SELL", getPos ts.positions p.1, price,
              proceeds, [("short_ma", shortMa), ("long_ma", longMa)]⟩]⟩
        else ts
      else ts) ts

/-- Strategy 7, breakout (main.py:2588-2632): entry above the trailing high
(current day excluded), exit below the trailing low.  When the slice minus
its last row is empty (`lookback_period = 0`), the source's empty-Series
`.max()`/`.min()` are NaN, both comparisons are False and no trade happens
— reproduced by the `2 ≤ length` test. -/
noncomputable def stepBreakout (stockData : List (String × Df))
    (lookbackPeriod : ℕ) (positionSize : ℝ) (currentPrices : List (String × ℝ))
    (date : ℤ) (ts : TradeState) : TradeState :=
  stockData.foldl (fun ts p =>
    match currentPrices.lookup p.1 with
    | none => ts
    | some price =>
      let histSlice := tailN (rowsUpTo p.2 date) (lookbackPeriod + 1)
      if lookbackPeriod + 1 ≤ histSlice.length then
        if 2 ≤ histSlice.length then
          let lookbackHigh := listMax (histSlice.dropLast.map fun q => q.2.hi)
          let lookbackLow := listMin (histSlice.dropLast.map fun q => q.2.lo)
          if lookbackHigh < price ∧ getPos ts.positions p.1 = 0 then
            let sharesToBuy := ⌊ts.cash * positionSize / price⌋
            if 0 < sharesToBuy then
              let cost := (sharesToBuy : ℝ) * price
              if cost ≤ ts.cash then
                ⟨ts.cash - cost, setPos ts.positions p.1 sharesToBuy,
                  ts.tradeLog ++ [⟨date, p.1, "BUY", sharesToBuy, price, cost,
                    [("breakout_level", lookbackHigh)]⟩]⟩
              else ts
            else ts
          else if price < lookbackLow ∧ 0 < getPos ts.positions p.1 then
            let proceeds := (getPos ts.positions p.1 : ℝ) * price
            ⟨ts.cash + proceeds, setPos ts.positions p.1 0,
              ts.tradeLog ++ [⟨date, p.1, "SELL", getPos ts.positions p.1, price,
                proceeds, [("breakdown_level", lookbackLow)]⟩]⟩
          else ts
        else ts
      else ts) ts

/-- The ratio series `hist1 / hist2` of the pairs-trading branch: pandas
aligns the two tails on their date index (values on one-sided dates become
NaN and are skipped by `mean()`/`std()`), modelled as the inner join. -/
noncomputable def pairRatioSeries (hist1 hist2 : List (ℤ × ℝ)) : List ℝ :=
  hist1.filterMap fun q => (hist2.lookup q.1).map fun c2 => q.2 / c2

/-- Strategy 8, pairs trading (main.py:2634-2711): z-score of the price
ratio of the first two symbols; the short leg is simulated by not buying. -/
noncomputable def stepPairsTrading (stockData : List (String × Df))
    (lookbackPeriod : ℕ) (positionSize : ℝ) (currentPrices : List (String × ℝ))
    (date : ℤ) (ts : TradeState) : TradeState :=
  match stockData with
  | p1 :: p2 :: _ =>
    match currentPrices.lookup p1.1, currentPrices.lookup p2.1 with
    | some price1, some price2 =>
      let hist1 := tailN (closeSeriesUpTo p1.2 date) lookbackPeriod
      let hist2 := tailN (closeSeriesUpTo p2.2 date) lookbackPeriod
      if lookbackPeriod ≤ hist1.length ∧ lookbackPeriod ≤ hist2.length then
        let ratioSeries := pairRatioSeries hist1 hist2
        let meanRat := listMean ratioSeries
        let stdRat := sampleStd ratioSeries
        if 0 < stdRat then
          let currentRat := price1 / price2
          let z := (currentRat - meanRat) / stdRat
          if 2 < z ∧ getPos ts.positions p1.1 = 0 ∧ getPos ts.positions p2.1 = 0 then
            let shares2 := ⌊ts.cash * 0.5 * positionSize / price2⌋
            if 0 < shares2 then
              let cost := (shares2 : ℝ) * price2
              if cost ≤ ts.cash then
                ⟨ts.cash - cost, setPos ts.positions p2.1 shares2,
                  ts.tradeLog ++ [⟨date, p2.1, "BUY", shares2, price2, cost,
                    [("z_score", z), ("pair_trade", 1)]⟩]⟩
              else ts
            else ts
          else if z < -2 ∧ getPos ts.positions p1.1 = 0 ∧ getPos ts.positions p2.1 = 0 then
            let shares1 := ⌊ts.cash * positionSize / price1⌋
            if 0 < shares1 then
              let cost := (shares1 : ℝ) * price1
              if cost ≤ ts.cash then
                ⟨ts.cash - cost, setPos ts.positions p1.1 shares1,
                  ts.tradeLog ++ [⟨date, p1.1, "BUY", shares1, price1, cost,
                    [("z_score", z), ("pair_trade", 1)]⟩]⟩
              else ts
            else ts
          else if |z| < 0.5 then
            [p1.1, p2.1].foldl (fun ts sym =>
              if 0 < getPos ts.positions sym then
                match currentPrices.lookup sym with
                | none => ts
                | some price =>
                  let proceeds := (getPos ts.positions sym : ℝ) * price
                  ⟨ts.cash + proceeds, setPos ts.positions sym 0,
                    ts.tradeLog ++ [⟨date, sym, "SELL", getPos ts.positions sym,
                      price, proceeds, [("z_score", z), ("pair_trade", 1)]⟩]⟩
              else ts) ts
          else ts
        else ts
      else ts
    | _, _ => ts
  | _ => ts

/-- The full evolving simulation state: the `TradeState` plus the
`portfolio_values` and `benchmark_value_series` arrays. -/
structure BtState where
  cash : ℝ
  positions : List (String × ℤ)
  tradeLog : List TradeEntry
  pfValues : List ℝ
  benchValues : List ℝ

/-- Portfolio value `cash + Σ positions[sym] * price` over the symbols with
a price on the current date (main.py:2295-2300 and 2713-2717). -/
noncomputable def btValue (positions : List (String × ℤ))
    (currentPrices : List (String × ℝ)) (cash : ℝ) : ℝ :=
  positions.foldl (fun acc p =>
    match currentPrices.lookup p.1 with
    | some price => acc + (p.2 : ℝ) * price
    | none => acc) cash

/-- `benchmark_shares` initialization (main.py:2279-2285).  The source
assigns the variable only when the benchmark dataframe is absent or empty
(`else` branch, 0) or when the first common date is present in its index
with a truthy positive close; otherwise `benchmark_shares` is left unbound,
modelled as `none`.  (`sorted_dates` is nonempty whenever this runs, since
the handler already checked for at least 50 common dates; the `[]` case is
unreachable.) -/
noncomputable def benchSharesInit (benchmarkData : Option Df) (sortedDates : List ℤ)
    (initialCapital : ℝ) : Option ℝ :=
  match benchmarkData with
  | none => some 0
  | some bd =>
    match bd with
    | [] => some 0
    | _ :: _ =>
      match sortedDates with
      | [] => some 0
      | d0 :: _ =>
        match dfCloseAt bd d0 with
        | some p => if 0 < p then some (initialCapital / p) else none
        | none => none

/-- Benchmark value tracked per date (main.py:2302-2308, 2721-2727).  When
the date is in the benchmark index the source reads `benchmark_shares`;
if that name is unbound (`none`) the read raises NameError, propagated
here as `none`. -/
noncomputable def benchValueAt (benchmarkData : Option Df) (benchShares : Option ℝ)
    (date : ℤ) (initialCapital : ℝ) : Option ℝ :=
  match benchmarkData with
  | some bd =>
    match dfCloseAt bd date with
    | some price => benchShares.map fun s => s * price
    | none => some initialCapital
  | none => some initialCapital

/-- The strategy execution loop (main.py:2291-2727): warmup for the first
`lookback_period` dates, then one strategy step per date, tracking
portfolio and benchmark values.  A NameError from reading the unbound
`benchmark_shares` escapes the handler's `except Exception` as
`HTTPException(500, f"Failed to run backtest: {e}")`, discarding the
partial state — modelled as the `Except.error` short-circuit (the message
elides Python's quotes around the variable name). -/
noncomputable def runBacktestLoop (stockData : List (String × Df))
    (benchmarkData : Option Df) (strategy : String) (lookbackPeriod : ℕ)
    (entryThreshold exitThreshold positionSize : ℝ) (weights : List ℝ)
    (initialCapital : ℝ) (sortedDates : List ℤ) : Except (ℕ × String) BtState :=
  let benchShares := benchSharesInit benchmarkData sortedDates initialCapital
  sortedDates.enum.foldl (fun acc q =>
    match acc with
    | .error e => .error e
    | .ok st =>
      let i := q.1
      let currentDate := q.2
      let currentPrices : List (String × ℝ) :=
        stockData.filterMap fun p => (dfCloseAt p.2 currentDate).map fun c => (p.1, c)
      if i < lookbackPeriod then
        match benchValueAt benchmarkData benchShares currentDate initialCapital with
        | none =>
          .error (500, "Failed to run backtest: name benchmark_shares is not defined")
        | some benchVal =>
          .ok { st with
            pfValues := st.pfValues ++ [btValue st.positions currentPrices st.cash],
            benchValues := st.benchValues ++ [benchVal] }
      else
        let ts : TradeState := ⟨st.cash, st.positions, st.tradeLog⟩
        let ts2 :=
          if strategy = "buy-and-hold" then
            if i = lookbackPeriod then
              stepBuyAndHold stockData weights currentPrices currentDate ts
            else ts
          else if strategy = "mean-reversion" then
            stepMeanReversion stockData lookbackPeriod entryThreshold exitThreshold
              positionSize currentPrices currentDate ts
          else if strategy = "momentum" then
            stepMomentum stockData lookbackPeriod positionSize currentPrices
              currentDate ts
          else if strategy = "rsi" then
            stepRsiStrategy stockData lookbackPeriod positionSize currentPrices
              currentDate ts
          else if strategy = "bollinger-bands" then
            stepBollinger stockData lookbackPeriod positionSize currentPrices
              currentDate ts
          else if strategy = "ma-crossover" then
            stepMaCrossover stockData positionSize currentPrices currentDate ts
          else if strategy = "breakout" then
            stepBreakout stockData lookbackPeriod positionSize currentPrices
              currentDate ts
          else if strategy = "pairs-trading" then
            stepPairsTrading stockData lookbackPeriod positionSize currentPrices
              currentDate ts
          else ts
        match benchValueAt benchmarkData benchShares currentDate initialCapital with
        | none =>
          .error (500, "Failed to run backtest: name benchmark_shares is not defined")
        | some benchVal =>
          .ok { cash := ts2.cash, positions := ts2.positions,
                tradeLog := ts2.tradeLog,
                pfValues := st.pfValues
                  ++ [btValue ts2.positions currentPrices ts2.cash],
                benchValues := st.benchValues ++ [benchVal] })
    (.ok ⟨initialCapital, stockData.map fun p => (p.1, 0), [], [], []⟩)

/-- `Series.pct_change().dropna()`. -/
noncomputable def pctChange (l : List ℝ) : List ℝ :=
  (l.zip l.tail).map fun p => (p.2 - p.1) / p.1

/-- `(1 + returns).cumprod()`. -/
noncomputable def cumProdOnePlus (returns : List ℝ) : List ℝ :=
  (returns.scanl (fun a r => a * (1 + r)) 1).tail

def runningMaxAux (m : ℝ) : List ℝ → List ℝ
  | [] => []
  | x :: xs => max m x :: runningMaxAux (max m x) xs

/-- `Series.expanding().max()`. -/
noncomputable def runningMax (l : List ℝ) : List ℝ :=
  runningMaxAux (l.headD 0) l

/-- The summary statistics computed at loop exit (main.py:2729-2779),
keyed as in the response's `performance` object.  The per-calendar-year
`yearlyReturns` groupby is not modelled (it needs a date-to-year calendar
and no claim concerns it). -/
noncomputable def backtestPerformance (st : BtState) (initialCapital : ℝ) :
    List (String × ℝ) :=
  let pfReturns := pctChange st.pfValues
  let cumulative := cumProdOnePlus pfReturns
  let annualReturn := listMean pfReturns * 252
  let annualVol := sampleStd pfReturns * Real.sqrt 252
  let sharpeVal := if 0 < annualVol then (annualReturn - 0.02) / annualVol else 0
  let downsideReturns := pfReturns.filter fun r => decide (r < 0)
  let downsideDev :=
    if downsideReturns.length ≠ 0 then sampleStd downsideReturns * Real.sqrt 252 else 0
  let sortinoVal := if 0 < downsideDev then (annualReturn - 0.02) / downsideDev else 0
  let rmax := runningMax cumulative
  let drawdown := List.zipWith (fun c m => (c - m) / m) cumulative rmax
  let maxDrawdown := listMin drawdown
  let positiveDays := pfReturns.countP fun r => decide (0 < r)
  let winRate :=
    if pfReturns.length ≠ 0 then
      ((positiveDays : ℝ) / pfReturns.length) * 100
    else 0
  ([("totalReturn", (cumulative.getLastD 1 - 1) * 100),
   ("annualReturn", annualReturn * 100),
   ("annualVolatility", annualVol * 100),
   ("sharpeRatio", sharpeVal),
   ("sortinoRatio", sortinoVal),
   ("maxDrawdown", maxDrawdown * 100),
   ("winRate", winRate),
   ("finalValue", st.pfValues.getLastD initialCapital),
   ("initialCapital", initialCapital)])

/-- `common_dates`, the intersection of every remaining symbol's date index
(main.py:2256-2262). -/
def commonDates (stockData : List (String × Df)) : Finset ℤ :=
  match stockData with
  | [] => ∅
  | x :: rest =>
    rest.foldl (fun acc y => acc ∩ (dfDates y.2).toFinset) (dfDates x.2).toFinset

structure BacktestOutput where
  performance : List (String × ℝ)
  tradeLog : List TradeEntry
  finalState : BtState

/-- The `POST /api/quant/backtest` handler from the point where the fetched
per-symbol dataframes are in hand (main.py:2247-2796): empty-data check,
common-date alignment check (`HTTPException(400, ...)` modelled as
`Except.error (status, detail)`), then the strategy loop and the summary
statistics. -/
noncomputable def backtest_strategy (stockData : List (String × Df))
    (benchmarkData : Option Df) (strategy : String) (lookbackPeriod : ℕ)
    (entryThreshold exitThreshold positionSize : ℝ) (weights : List ℝ)
    (initialCapital : ℝ) : Except (ℕ × String) BacktestOutput :=
  match stockData with
  | [] => .error (400, "No valid historical data found")
  | _ :: _ =>
    let cd := commonDates stockData
    if cd.card < 50 then .error (400, "Insufficient overlapping historical data")
    else
      let sortedDates := cd.sort (· ≤ ·)
      match runBacktestLoop stockData benchmarkData strategy lookbackPeriod
        entryThreshold exitThreshold positionSize weights initialCapital sortedDates with
      | .error e => .error e
      | .ok st => .ok ⟨backtestPerformance st initialCapital, st.tradeLog, st⟩

/-- The strictly increasing 15-point chart series 0,1,...,14 used as the
C6 witness input. -/
def rsiWitnessData : List (ℤ × ℚ) :=
  [(0, 0), (1, 1), (2, 2), (3, 3), (4, 4), (5, 5), (6, 6), (7, 7),
   (8, 8), (9, 9), (10, 10), (11, 11), (12, 12), (13, 13), (14, 14)]

lemma normPdf_pos (x : ℝ) : 0 < gaussianPDFReal 0 1 x :=
  gaussianPDFReal_pos 0 1 x one_ne_zero

lemma normPdf_integrable : Integrable (gaussianPDFReal 0 1) :=
  integrable_gaussianPDFReal 0 1

lemma normPdf_total : (∫ t, gaussianPDFReal 0 1 t) = 1 :=
  integral_gaussianPDFReal_eq_one 0 one_ne_zero

lemma normCdf_add_Ioc {x y : ℝ} (h : x ≤ y) :
    normCdf y = normCdf x + ∫ t in Set.Ioc x y, gaussianPDFReal 0 1 t := by
  rw [normCdf, normCdf, ← Set.Iic_union_Ioc_eq_Iic h,
    setIntegral_union (Set.Iic_disjoint_Ioc le_rfl) measurableSet_Ioc
      normPdf_integrable.integrableOn normPdf_integrable.integrableOn]

lemma normPdf_intervalIntegral_pos {x y : ℝ} (h : x < y) :
    0 < ∫ t in Set.Ioc x y, gaussianPDFReal 0 1 t := by
  rw [← intervalIntegral.integral_of_le h.le]
  exact intervalIntegral.intervalIntegral_pos_of_pos
    normPdf_integrable.intervalIntegrable normPdf_pos h

lemma normCdf_strictMono : StrictMono normCdf := by
  intro x y h
  have h2 := normPdf_intervalIntegral_pos h
  rw [normCdf_add_Ioc h.le]
  linarith

lemma normCdf_lt_one (x : ℝ) : normCdf x < 1 := by
  have hsplit : (∫ t in Set.Iic x, gaussianPDFReal 0 1 t)
      + ∫ t in Set.Ioi x, gaussianPDFReal 0 1 t = 1 := by
    have h := integral_add_compl (μ := volume) (f := gaussianPDFReal 0 1)
      (s := Set.Iic x) measurableSet_Iic normPdf_integrable
    rwa [Set.compl_Iic, normPdf_total] at h
  have htail : 0 < ∫ t in Set.Ioi x, gaussianPDFReal 0 1 t := by
    have hcup : Set.Ioc x (x + 1) ∪ Set.Ioi (x + 1) = Set.Ioi x :=
      Set.Ioc_union_Ioi_eq_Ioi (by linarith)
    have hdisj : Disjoint (Set.Ioc x (x + 1)) (Set.Ioi (x + 1)) := by
      apply Set.disjoint_left.2
      intro t ht ht2
      exact absurd ht.2 (not_le.2 ht2)
    rw [← hcup, setIntegral_union hdisj measurableSet_Ioi
      normPdf_integrable.integrableOn normPdf_integrable.integrableOn]
    have h1 : 0 < ∫ t in Set.Ioc x (x + 1), gaussianPDFReal 0 1 t :=
      normPdf_intervalIntegral_pos (by linarith)
    have h2 : 0 ≤ ∫ t in Set.Ioi (x + 1), gaussianPDFReal 0 1 t :=
      setIntegral_nonneg measurableSet_Ioi fun t _ => (normPdf_pos t).le
    linarith
  rw [normCdf]
  linarith

lemma normPdf_even (t : ℝ) : gaussianPDFReal 0 1 (-t) = gaussianPDFReal 0 1 t := by
  simp [gaussianPDFReal]

lemma normCdf_zero : normCdf 0 = 1 / 2 := by
  have hrefl : (∫ t in Set.Iic (0 : ℝ), gaussianPDFReal 0 1 t)
      = ∫ t in Set.Ioi (0 : ℝ), gaussianPDFReal 0 1 t := by
    have h1 : (∫ t in Set.Iic (0 : ℝ), gaussianPDFReal 0 1 (-t))
        = ∫ t in Set.Ioi (-(0 : ℝ)), gaussianPDFReal 0 1 t :=
      integral_comp_neg_Iic 0 (gaussianPDFReal 0 1)
    simp only [neg_zero] at h1
    rw [← h1]
    congr 1
    funext t
    exact (normPdf_even t).symm
  have hsplit : (∫ t in Set.Iic (0 : ℝ), gaussianPDFReal 0 1 t)
      + ∫ t in Set.Ioi (0 : ℝ), gaussianPDFReal 0 1 t = 1 := by
    have h := integral_add_compl (μ := volume) (f := gaussianPDFReal 0 1)
      (s := Set.Iic (0 : ℝ)) measurableSet_Iic normPdf_integrable
    rwa [Set.compl_Iic, normPdf_total] at h
  rw [normCdf]
  linarith [hsplit, hrefl]

lemma normCdf_pos (x : ℝ) : 0 < normCdf x := by
  have hlt : normCdf (x - 1) < normCdf x := normCdf_strictMono (by linarith)
  have h0 : 0 ≤ normCdf (x - 1) :=
    setIntegral_nonneg measurableSet_Iic fun t _ => (normPdf_pos t).le
  linarith

lemma sqrt_two_pi_lt : Real.sqrt (2 * Real.pi) < 2.5067 := by
  rw [Real.sqrt_lt' (by norm_num)]
  nlinarith [Real.pi_lt_d6]

lemma sqrt_two_pi_pos : 0 < Real.sqrt (2 * Real.pi) :=
  Real.sqrt_pos.2 (by positivity)

lemma exp_half_lt : Real.exp (1 / 2) < 1.6488 := by
  have h : Real.exp (1 / 2) * Real.exp (1 / 2) = Real.exp 1 := by
    rw [← Real.exp_add]; norm_num
  nlinarith [Real.exp_one_lt_d9, Real.exp_pos ((1 : ℝ) / 2),
    sq_nonneg (Real.exp (1 / 2) - 1.6488)]

lemma exp_neg_half_gt : (0.6065 : ℝ) < Real.exp (-(1 / 2)) := by
  rw [Real.exp_neg]
  have h1 := exp_half_lt
  have h2 := Real.exp_pos ((1 : ℝ) / 2)
  have h3 : Real.exp (1 / 2) * (Real.exp (1 / 2))⁻¹ = 1 :=
    mul_inv_cancel₀ (ne_of_gt h2)
  nlinarith [inv_pos.2 h2]

lemma normPdf_eval (t : ℝ) :
    gaussianPDFReal 0 1 t = (Real.sqrt (2 * Real.pi))⁻¹ * Real.exp (-t ^ 2 / 2) := by
  simp [gaussianPDFReal]

lemma normCdf_one_gt : (0.7 : ℝ) < normCdf 1 := by
  have hIoc := normCdf_add_Ioc (show (0 : ℝ) ≤ 1 by norm_num)
  rw [normCdf_zero] at hIoc
  have hival : (∫ t in Set.Ioc (0 : ℝ) 1, gaussianPDFReal 0 1 t)
      = ∫ t in (0 : ℝ)..1, gaussianPDFReal 0 1 t :=
    (intervalIntegral.integral_of_le (by norm_num)).symm
  set c : ℝ := (Real.sqrt (2 * Real.pi))⁻¹ * Real.exp (-(1 / 2)) with hc
  have hlb : c ≤ ∫ t in (0 : ℝ)..1, gaussianPDFReal 0 1 t := by
    have hmono : (∫ t in (0 : ℝ)..1, c) ≤ ∫ t in (0 : ℝ)..1, gaussianPDFReal 0 1 t := by
      apply intervalIntegral.integral_mono_on (by norm_num)
        intervalIntegrable_const normPdf_integrable.intervalIntegrable
      intro t ht
      rw [normPdf_eval, hc]
      have h1 : t ^ 2 ≤ 1 := by nlinarith [ht.1, ht.2]
      have h2 : Real.exp (-(1 / 2)) ≤ Real.exp (-t ^ 2 / 2) := by
        apply Real.exp_le_exp.2; linarith
      exact mul_le_mul_of_nonneg_left h2 (inv_nonneg.2 sqrt_two_pi_pos.le)
    rw [intervalIntegral.integral_const] at hmono
    simpa using hmono
  have hcgt : (0.2 : ℝ) < c := by
    rw [hc]
    have h1 := sqrt_two_pi_lt
    have h2 := sqrt_two_pi_pos
    have h3 := exp_neg_half_gt
    have h4 : (2.5067 : ℝ)⁻¹ ≤ (Real.sqrt (2 * Real.pi))⁻¹ :=
      inv_anti₀ h2 h1.le
    have h5 : (0 : ℝ) < (Real.sqrt (2 * Real.pi))⁻¹ := inv_pos.2 h2
    nlinarith
  rw [hival] at hIoc
  linarith

lemma days_to_expiration_pos (parsedDays : Option ℤ) :
    0 < calculate_days_to_expiration parsedDays := by
  match parsedDays with
  | some days =>
    have h : (1 : ℤ) ≤ max 1 days := le_max_left 1 days
    have h2 : (1 : ℝ) ≤ ((max 1 days : ℤ) : ℝ) := by exact_mod_cast h
    unfold calculate_days_to_expiration
    positivity
  | none => unfold calculate_days_to_expiration; norm_num

/-! ## Claim C1: at-the-money call delta -/

/-- C1 counterexample: at S = K = 100, sigma = 5, expiration one year out
(T = 365/365 = 1), the call delta is `normCdf 2.51 > 0.7`, so the claimed
bound "strictly between 0.4 and 0.7" fails at this input. -/
theorem c1_counterexample :
    ¬ (0.4 < calculate_delta 100 100 5 (some 365) OptType.call
       ∧ calculate_delta 100 100 5 (some 365) OptType.call < 0.7) := by
  have hT : calculate_days_to_expiration (some 365) = 1 := by
    show ((max 1 365 : ℤ) : ℝ) / 365 = 1
    norm_num
  have hdelta : calculate_delta 100 100 5 (some 365) OptType.call = normCdf 2.51 := by
    unfold calculate_delta
    rw [hT]
    norm_num [Real.log_one, Real.sqrt_one]
  intro h
  have h1 : normCdf 1 ≤ normCdf 2.51 := normCdf_strictMono.monotone (by norm_num)
  have h2 := normCdf_one_gt
  rw [hdelta] at h
  linarith [h.2]

/-- C1 (amended): for every at-the-money input with S = K > 0, sigma > 0 and
any expiration (T is always positive), the call delta lies strictly between
0.4 and 1 — the d1 numerator `(r + sigma^2/2)T` is positive, so the delta is
`normCdf` of a positive argument, hence in (1/2, 1). -/
theorem c1_atm_call_delta (S K sigma : ℝ) (expirationDays : Option ℤ)
    (hSK : S = K) (hS : 0 < S) (hsigma : 0 < sigma) :
    0.4 < calculate_delta S K sigma expirationDays OptType.call
    ∧ calculate_delta S K sigma expirationDays OptType.call < 1 := by
  have hT := days_to_expiration_pos expirationDays
  have hK : 0 < K := hSK ▸ hS
  have hSK1 : S / K = 1 := by rw [hSK]; exact div_self (ne_of_gt hK)
  have hdelta : calculate_delta S K sigma expirationDays OptType.call
      = normCdf ((Real.log (S / K)
          + (0.05 + 0.5 * sigma ^ 2) * calculate_days_to_expiration expirationDays)
        / (sigma * Real.sqrt (calculate_days_to_expiration expirationDays))) := by
    unfold calculate_delta
    rw [if_neg, if_neg]
    · rw [hSK1]; norm_num
    · rw [not_or]; push_neg; exact ⟨hsigma, hT⟩
  have hd1 : 0 < (Real.log (S / K)
      + (0.05 + 0.5 * sigma ^ 2) * calculate_days_to_expiration expirationDays)
      / (sigma * Real.sqrt (calculate_days_to_expiration expirationDays)) := by
    rw [hSK1, Real.log_one]
    have hs := Real.sqrt_pos.2 hT
    have hnum : 0 < 0.05 + 0.5 * sigma ^ 2 := by positivity
    positivity
  constructor
  · have h0 : normCdf 0 < normCdf _ := normCdf_strictMono hd1
    rw [normCdf_zero] at h0
    rw [hdelta]
    linarith
  · rw [hdelta]
    exact normCdf_lt_one _

/-- C1 witness: the amended theorem applied at S = K = 100, sigma = 1,
unparseable expiration (T = 30/365). -/
theorem c1_atm_call_delta_witness :
    ((100 : ℝ) = 100 ∧ (0 : ℝ) < 100 ∧ (0 : ℝ) < 1)
    ∧ (0.4 < calculate_delta 100 100 1 none OptType.call
       ∧ calculate_delta 100 100 1 none OptType.call < 1) :=
  ⟨⟨rfl, by norm_num, by norm_num⟩,
    c1_atm_call_delta 100 100 1 none rfl (by norm_num) (by norm_num)⟩

/-! ## Claim C9: degenerate-input sentinels of the four Greeks -/

/-- C9: whenever sigma ≤ 0 (the computed T is always positive, so the
`T ≤ 0` disjunct is never the live one), the four Greek functions return
their fixed sentinels: delta 0.5 (call) / -0.5 (put), gamma 0.001, theta
-0.05, vega 0.01; as total functions they never raise. -/
theorem c9_degenerate_sentinels (S K sigma : ℝ) (expirationDays : Option ℤ)
    (hsigma : sigma ≤ 0) :
    calculate_delta S K sigma expirationDays OptType.call = 0.5
    ∧ calculate_delta S K sigma expirationDays OptType.put = -0.5
    ∧ calculate_gamma S K sigma expirationDays = 0.001
    ∧ calculate_theta S K sigma expirationDays OptType.call = -0.05
    ∧ calculate_theta S K sigma expirationDays OptType.put = -0.05
    ∧ calculate_vega S K sigma expirationDays = 0.01 := by
  refine ⟨?_, ?_, ?_, ?_, ?_, ?_⟩
  · unfold calculate_delta; rw [if_pos (Or.inl hsigma)]
  · unfold calculate_delta; rw [if_pos (Or.inl hsigma)]
  · unfold calculate_gamma; rw [if_pos (Or.inl hsigma)]
  · unfold calculate_theta; rw [if_pos (Or.inl hsigma)]
  · unfold calculate_theta; rw [if_pos (Or.inl hsigma)]
  · unfold calculate_vega; rw [if_pos (Or.inl hsigma)]

/-- C9 witness: the sentinel theorem at sigma = 0 (S = 10, K = 10,
unparseable expiration). -/
theorem c9_degenerate_sentinels_witness :
    ((0 : ℝ) ≤ 0)
    ∧ (calculate_delta 10 10 0 none OptType.call = 0.5
       ∧ calculate_delta 10 10 0 none OptType.put = -0.5
       ∧ calculate_gamma 10 10 0 none = 0.001
       ∧ calculate_theta 10 10 0 none OptType.call = -0.05
       ∧ calculate_theta 10 10 0 none OptType.put = -0.05
       ∧ calculate_vega 10 10 0 none = 0.01) :=
  ⟨le_refl 0, c9_degenerate_sentinels 10 10 0 none (le_refl 0)⟩

/-! ## Claim C2: run_monte_carlo always raises KeyError -/

/-- C3: for every key, value, positive ttl, state and instant, `set_cache`
immediately followed by `get_cache` yields the value after a JSON round
trip: on the Redis path the stored `json.dumps` payload is `json.loads`-ed
back (tuples become lists), on the in-process path the value itself is
returned. -/
theorem c3_cache_roundtrip (st : CacheState) (now : ℚ) (key : String)
    (v : PyValue) (ttl : ℚ) (httl : 0 < ttl) :
    (st.redisUp = true →
      (get_cache (set_cache st now key v ttl) now key).1 = fromJson (toJson v))
    ∧ (st.redisUp = false →
      (get_cache (set_cache st now key v ttl) now key).1 = v) := by
  constructor
  · intro hr
    simp [set_cache, get_cache, hr]
  · intro hr
    simp [set_cache, get_cache, hr, show now < now + ttl from by linarith]

/-- C3 witness: a tuple value cached in the in-process fallback path with
ttl 5 comes back unchanged at the same instant. -/
theorem c3_cache_roundtrip_witness :
    (0 : ℚ) < 5
    ∧ (get_cache (set_cache ⟨false, fun _ => none, fun _ => none⟩ 0 "k"
        (PyValue.pyTuple [PyValue.pyInt 1]) 5) 0 "k").1
      = PyValue.pyTuple [PyValue.pyInt 1] :=
  ⟨by norm_num,
    (c3_cache_roundtrip ⟨false, fun _ => none, fun _ => none⟩ 0 "k"
      (PyValue.pyTuple [PyValue.pyInt 1]) 5 (by norm_num)).2 rfl⟩

/-! ## Claim C4: in-process TTL expiry, evict-on-read -/

/-- C4: if `set_cache` stored the entry in the in-process map (Redis
unavailable), a `get_cache` at or past the stored expiration returns None
and deletes the entry, while a read strictly before the expiration returns
the value. -/
theorem c4_cache_expiry (st : CacheState) (t₀ now : ℚ) (key : String)
    (v : PyValue) (ttl : ℚ) (hr : st.redisUp = false) :
    (t₀ + ttl ≤ now →
      (get_cache (set_cache st t₀ key v ttl) now key).1 = PyValue.pyNone
      ∧ (get_cache (set_cache st t₀ key v ttl) now key).2.memoryCache key = none)
    ∧ (now < t₀ + ttl →
      (get_cache (set_cache st t₀ key v ttl) now key).1 = v) := by
  constructor
  · intro h
    have hnot : ¬ now < t₀ + ttl := not_lt.2 h
    refine ⟨?_, ?_⟩ <;> simp [set_cache, get_cache, hr, hnot]
  · intro h
    simp [set_cache, get_cache, hr, h]

/-- C4 witness: an entry written at time 0 with ttl 5 read at time 5 is a
miss and is evicted. -/
theorem c4_cache_expiry_witness :
    ((⟨false, fun _ => none, fun _ => none⟩ : CacheState).redisUp = false
     ∧ (0 : ℚ) + 5 ≤ 5)
    ∧ ((get_cache (set_cache ⟨false, fun _ => none, fun _ => none⟩ 0 "k"
          (PyValue.pyInt 7) 5) 5 "k").1 = PyValue.pyNone
       ∧ (get_cache (set_cache ⟨false, fun _ => none, fun _ => none⟩ 0 "k"
          (PyValue.pyInt 7) 5) 5 "k").2.memoryCache "k" = none) :=
  ⟨⟨rfl, by norm_num⟩,
    (c4_cache_expiry ⟨false, fun _ => none, fun _ => none⟩ 0 5 "k"
      (PyValue.pyInt 7) 5 rfl).1 (by norm_num)⟩

/-! ## Claim C5: SMA point count and values -/

lemma filterMap_rolling {α : Type} (g : ℕ → α) (w : ℕ) (hw : 1 ≤ w) (n : ℕ) :
    (List.range n).filterMap (fun i => if w ≤ i + 1 then some (g i) else none)
    = (List.range (n + 1 - w)).map (fun j => g (w - 1 + j)) := by
  induction n with
  | zero =>
    have h0 : 0 + 1 - w = 0 := by omega
    simp [h0]
  | succ n ih =>
    rw [List.range_succ, List.filterMap_append, ih]
    by_cases h : w ≤ n + 1
    · have h3 : n + 1 + 1 - w = (n + 1 - w) + 1 := by omega
      rw [h3, List.range_succ, List.map_append]
      have h4 : w - 1 + (n + 1 - w) = n := by omega
      simp [h, h4]
    · have h1 : n + 1 - w = 0 := by omega
      have h2 : n + 1 + 1 - w = 0 := by omega
      simp [h, h1, h2]

lemma calculate_sma_eq (data : List (ℤ × ℚ)) (period : ℕ) (hp : 1 ≤ period) :
    calculate_sma data period
    = (List.range (data.length + 1 - period)).map (fun j =>
        ((data.map Prod.fst).getD (period - 1 + j) 0,
         (((data.map Prod.snd).drop j).take period).sum / period)) := by
  have hfun : (fun i => (rollingMean (data.map Prod.snd) period i).map
      fun v => ((data.map Prod.fst).getD i 0, v))
      = fun i => if period ≤ i + 1 then
          some ((data.map Prod.fst).getD i 0,
            (((data.map Prod.snd).drop (i + 1 - period)).take period).sum / period)
        else none := by
    funext i
    unfold rollingMean
    by_cases h : period ≤ i + 1 <;> simp [h]
  rw [calculate_sma, hfun, filterMap_rolling _ period hp]
  apply List.map_congr_left
  intro j _
  have h5 : period - 1 + j + 1 - period = j := by omega
  rw [h5]

/-- C5: for every price series and window `w ≥ 1`, `calculate_sma` returns
the empty list when the series is shorter than the window, and exactly
`n - w + 1` points otherwise, the j-th point being the arithmetic mean of
the `w` trailing closes ending at original index `j + w - 1`. -/
theorem c5_sma_spec (data : List (ℤ × ℚ)) (period : ℕ) (hp : 1 ≤ period) :
    (data.length < period → calculate_sma data period = [])
    ∧ (period ≤ data.length →
        (calculate_sma data period).length = data.length - period + 1
        ∧ ∀ j, j < (calculate_sma data period).length →
            ((calculate_sma data period).getD j (0, 0)).2
            = (((data.map Prod.snd).drop j).take period).sum / period) := by
  have he := calculate_sma_eq data period hp
  refine ⟨fun hlt => ?_, fun hge => ⟨?_, fun j hj => ?_⟩⟩
  · rw [he]
    have h0 : data.length + 1 - period = 0 := by omega
    simp [h0]
  · rw [he, List.length_map, List.length_range]
    omega
  · rw [he] at hj ⊢
    rw [List.length_map, List.length_range] at hj
    rw [List.getD_eq_getElem?_getD, List.getElem?_map, List.getElem?_range hj]
    rfl

/-- C5 witness: window 1 over a two-point series gives two points. -/
theorem c5_sma_spec_witness :
    1 ≤ 1
    ∧ ((([((0 : ℤ), (2 : ℚ)), (1, 4)]).length < 1
          → calculate_sma [((0 : ℤ), (2 : ℚ)), (1, 4)] 1 = [])
       ∧ (1 ≤ ([((0 : ℤ), (2 : ℚ)), (1, 4)]).length →
          (calculate_sma [((0 : ℤ), (2 : ℚ)), (1, 4)] 1).length
            = ([((0 : ℤ), (2 : ℚ)), (1, 4)]).length - 1 + 1
          ∧ ∀ j, j < (calculate_sma [((0 : ℤ), (2 : ℚ)), (1, 4)] 1).length →
              ((calculate_sma [((0 : ℤ), (2 : ℚ)), (1, 4)] 1).getD j (0, 0)).2
              = ((([((0 : ℤ), (2 : ℚ)), (1, 4)].map Prod.snd).drop j).take 1).sum / 1)) :=
  ⟨le_refl 1, c5_sma_spec [((0 : ℤ), (2 : ℚ)), (1, 4)] 1 (le_refl 1)⟩

/-! ## Claim C6: RSI on a strictly increasing series -/

lemma diffs_cons₂ (a b : ℚ) (t : List ℚ) :
    diffs (a :: b :: t) = (b - a) :: diffs (b :: t) := rfl

lemma diffs_pos (closes : List ℚ) (hc : List.Chain' (· < ·) closes) :
    ∀ d ∈ diffs closes, 0 < d := by
  induction closes with
  | nil => intro d hd; simp [diffs] at hd
  | cons a t ih =>
    cases t with
    | nil => intro d hd; simp [diffs] at hd
    | cons b t2 =>
      rw [List.chain'_cons] at hc
      intro d hd
      rw [diffs_cons₂] at hd
      rcases List.mem_cons.1 hd with h | h
      · rw [h]; linarith [hc.1]
      · exact ih hc.2 d h

lemma diffs_length (l : List ℚ) : (diffs l).length = l.length - 1 := by
  unfold diffs
  rw [List.length_map, List.length_zip, List.length_tail]
  omega

lemma lossPart_eq_zero (l : List ℚ) (h : ∀ d ∈ l, 0 ≤ d) :
    (l.map fun d => if d < 0 then -d else 0).sum = 0 := by
  apply List.sum_eq_zero
  intro x hx
  rcases List.mem_map.1 hx with ⟨d, hd, rfl⟩
  rw [if_neg (not_lt.2 (h d hd))]

lemma list_sum_pos_of_mem (l : List ℚ) (hall : ∀ x ∈ l, 0 ≤ x) (x : ℚ)
    (hx : x ∈ l) (hxpos : 0 < x) : 0 < l.sum := by
  induction l with
  | nil => simp at hx
  | cons a t ih =>
    rcases List.mem_cons.1 hx with h | h
    · have ht : 0 ≤ t.sum :=
        List.sum_nonneg fun y hy => hall y (List.mem_cons_of_mem a hy)
      rw [List.sum_cons]
      subst h
      linarith
    · have ha : 0 ≤ a := hall a (List.mem_cons_self a t)
      have ht := ih (fun y hy => hall y (List.mem_cons_of_mem a hy)) h
      rw [List.sum_cons]
      linarith

lemma rsiAt_nonneg_deltas (closes : List ℚ) (period i : ℕ)
    (hpos : ∀ d ∈ (0 : ℚ) :: diffs closes, 0 ≤ d) :
    ∀ v, rsiAt closes period i = some v → v = 100 := by
  intro v hv
  unfold rsiAt at hv
  by_cases hp : period ≤ i + 1
  · rw [if_pos hp] at hv
    have hwpos : ∀ d ∈ (((0 : ℚ) :: diffs closes).drop (i + 1 - period)).take period,
        0 ≤ d :=
      fun d hd => hpos d (List.mem_of_mem_drop (List.mem_of_mem_take hd))
    have hloss := lossPart_eq_zero _ hwpos
    simp only [hloss, zero_div, if_true] at hv
    split at hv
    · exact absurd hv (by simp)
    · exact (Option.some.injEq _ _ ▸ hv).symm
  · rw [if_neg hp] at hv
    exact absurd hv (by simp)

lemma rsiAt_all_gains (closes : List ℚ) (period i : ℕ) (hp : period ≤ i + 1)
    (hper : period ≠ 0)
    (hpos : ∀ d ∈ (((0 : ℚ) :: diffs closes).drop (i + 1 - period)).take period, 0 ≤ d)
    (hex : ∃ d ∈ (((0 : ℚ) :: diffs closes).drop (i + 1 - period)).take period, 0 < d) :
    rsiAt closes period i = some 100 := by
  unfold rsiAt
  rw [if_pos hp]
  have hloss := lossPart_eq_zero _ hpos
  have hgain : 0 < ((((0 : ℚ) :: diffs closes).drop (i + 1 - period)).take period
      |>.map fun d => if 0 < d then d else 0).sum := by
    rcases hex with ⟨d, hd, hdpos⟩
    have hmem : (if 0 < d then d else 0)
        ∈ ((((0 : ℚ) :: diffs closes).drop (i + 1 - period)).take period
          |>.map fun d => if 0 < d then d else 0) :=
      List.mem_map_of_mem _ hd
    rw [if_pos hdpos] at hmem
    apply list_sum_pos_of_mem _ ?_ d hmem hdpos
    intro x hx
    rcases List.mem_map.1 hx with ⟨e, _, rfl⟩
    by_cases he : 0 < e
    · rw [if_pos he]; exact he.le
    · rw [if_neg he]
  have hgain2 : ((((0 : ℚ) :: diffs closes).drop (i + 1 - period)).take period
      |>.map fun d => if 0 < d then d else 0).sum / (period : ℚ) ≠ 0 :=
    div_ne_zero (ne_of_gt hgain) (by exact_mod_cast hper)
  simp only [hloss, zero_div, if_true]
  rw [if_neg hgain2]

/-- C6: on every strictly increasing price series of length ≥ 15, the
emitted RSI(14) values are all exactly 100 (average loss 0, all gains) and
in particular never exceed 100 nor fall below 0; at least one point is
emitted. -/
theorem c6_rsi_bounds (data : List (ℤ × ℚ))
    (hmono : List.Chain' (· < ·) (data.map Prod.snd))
    (hlen : 15 ≤ data.length) :
    calculate_rsi data 14 ≠ []
    ∧ ∀ p ∈ calculate_rsi data 14, p.2 = 100 ∧ 0 ≤ p.2 ∧ p.2 ≤ 100 := by
  have hdpos := diffs_pos (data.map Prod.snd) hmono
  have hpad : ∀ d ∈ (0 : ℚ) :: diffs (data.map Prod.snd), 0 ≤ d := by
    intro d hd
    rcases List.mem_cons.1 hd with h | h
    · rw [h]
    · exact (hdpos d h).le
  constructor
  · have hdl : 14 ≤ (diffs (data.map Prod.snd)).length := by
      rw [diffs_length, List.length_map]
      omega
    have hds : (((0 : ℚ) :: diffs (data.map Prod.snd)).drop (14 + 1 - 14)).take 14
        = (diffs (data.map Prod.snd)).take 14 := rfl
    have hnn : (diffs (data.map Prod.snd)).take 14 ≠ [] := by
      have : 0 < ((diffs (data.map Prod.snd)).take 14).length := by
        rw [List.length_take]
        omega
      exact List.ne_nil_of_length_pos this
    rcases List.exists_mem_of_ne_nil _ hnn with ⟨d, hd⟩
    have h14 : rsiAt (data.map Prod.snd) 14 14 = some 100 := by
      apply rsiAt_all_gains _ 14 14 (by norm_num) (by norm_num)
      · rw [hds]
        intro e he
        exact (hdpos e (List.mem_of_mem_take he)).le
      · rw [hds]
        exact ⟨d, hd, hdpos d (List.mem_of_mem_take hd)⟩
    apply List.ne_nil_of_mem (a := ((data.map Prod.fst).getD 14 0, (100 : ℚ)))
    apply List.mem_filterMap.2
    refine ⟨14, List.mem_range.2 (by omega), ?_⟩
    rw [h14]
    rfl
  · intro p hp
    rcases List.mem_filterMap.1 hp with ⟨i, _, hmap⟩
    rcases Option.map_eq_some'.1 hmap with ⟨v, hv, hpv⟩
    have h100 := rsiAt_nonneg_deltas (data.map Prod.snd) 14 i hpad v hv
    rw [← hpv, h100]
    norm_num

/-- C6 witness: the strictly increasing 15-point series 0,1,...,14. -/
theorem c6_rsi_bounds_witness :
    (List.Chain' (· < ·) (rsiWitnessData.map Prod.snd)
     ∧ 15 ≤ rsiWitnessData.length)
    ∧ (calculate_rsi rsiWitnessData 14 ≠ []
       ∧ ∀ p ∈ calculate_rsi rsiWitnessData 14,
          p.2 = 100 ∧ 0 ≤ p.2 ∧ p.2 ≤ 100) :=
  ⟨⟨by norm_num [rsiWitnessData, List.chain'_cons], by decide⟩,
    c6_rsi_bounds rsiWitnessData
      (by norm_num [rsiWitnessData, List.chain'_cons]) (by decide)⟩

/-! ## Claim C7: insufficient overlapping history fails with HTTP 400 -/

/-- C7: with at least one symbol remaining after exclusion, if the common
trading dates number fewer than 50 (in particular if none are common), the
backtest fails with HTTP 400 "Insufficient overlapping historical data";
the strategy loop lives only in the `.ok` branch, so it is never entered. -/
theorem c7_insufficient_data (stockData : List (String × Df))
    (benchmarkData : Option Df) (strategy : String) (lookbackPeriod : ℕ)
    (entryThreshold exitThreshold positionSize : ℝ) (weights : List ℝ)
    (initialCapital : ℝ) (hne : stockData ≠ [])
    (hcard : (commonDates stockData).card < 50) :
    backtest_strategy stockData benchmarkData strategy lookbackPeriod
      entryThreshold exitThreshold positionSize weights initialCapital
    = .error (400, "Insufficient overlapping historical data") := by
  match stockData, hne with
  | x :: rest, _ =>
    simp only [backtest_strategy]
    rw [if_pos hcard]

/-- C7 witness: a single remaining symbol with an empty history (zero
common dates). -/
theorem c7_insufficient_data_witness :
    ([("AAPLx", ([] : Df))] ≠ ([] : List (String × Df))
     ∧ (commonDates ([("AAPLx", ([] : Df))])).card < 50)
    ∧ backtest_strategy ([("AAPLx", ([] : Df))]) none "buy-and-hold" 20
        (-2) 0 0.1 ([1]) 10000
      = .error (400, "Insufficient overlapping historical data") :=
  ⟨⟨by simp, by norm_num [commonDates, dfDates]⟩,
    c7_insufficient_data ([("AAPLx", ([] : Df))]) none "buy-and-hold" 20
      (-2) 0 0.1 ([1]) 10000 (by simp) (by norm_num [commonDates, dfDates])⟩

/-! ## Claim C8: backtest determinism -/

/-- C8: the backtest pipeline after the fetch is a pure function of the
fetched data, the strategy string and the parameters — no strategy branch
and no summary-statistic step draws randomness — so two executions on
identical inputs produce an identical trade log and identical final
portfolio value. -/
theorem c8_backtest_deterministic (stockData : List (String × Df))
    (benchmarkData : Option Df) (strategy : String) (lookbackPeriod : ℕ)
    (entryThreshold exitThreshold positionSize : ℝ) (weights : List ℝ)
    (initialCapital : ℝ) :
    Except.map (fun o => o.tradeLog)
        (backtest_strategy stockData benchmarkData strategy lookbackPeriod
          entryThreshold exitThreshold positionSize weights initialCapital)
      = Except.map (fun o => o.tradeLog)
        (backtest_strategy stockData benchmarkData strategy lookbackPeriod
          entryThreshold exitThreshold positionSize weights initialCapital)
    ∧ Except.map (fun o => o.performance.lookup "finalValue")
        (backtest_strategy stockData benchmarkData strategy lookbackPeriod
          entryThreshold exitThreshold positionSize weights initialCapital)
      = Except.map (fun o => o.performance.lookup "finalValue")
        (backtest_strategy stockData benchmarkData strategy lookbackPeriod
          entryThreshold exitThreshold positionSize weights initialCapital) :=
  ⟨rfl, rfl⟩

/-! ## Claim C10: portfolio weight normalization -/

lemma sum_map_div (l : List ℚ) (c : ℚ) :
    (l.map fun x => x / c).sum = l.sum / c := by
  induction l with
  | nil => simp
  | cons a t ih => simp [ih, add_div]

/-- C10 counterexample: a nonempty weight dict summing to 0 (here
`{"A": 0}`) is outside the 0.01 tolerance and the renormalization
`v / total_weight` raises ZeroDivisionError, so the weight-handling step
does raise for this input. -/
theorem c10_counterexample : weightHandling [("A", (0 : ℚ))] = .error () := by
  have h1 : (([("A", (0 : ℚ))]).map Prod.snd).sum = 0 := by simp
  unfold weightHandling
  rw [if_pos (by rw [h1]; norm_num), if_pos ⟨h1, by simp⟩]

/-- C10 (amended): weights within 0.01 of summing to 1 are used unchanged
(no warning); outside the tolerance and with a nonzero total each weight is
divided by the total (with a warning) and the renormalized weights sum to
1; the step raises only in the zero-total nonempty case of the
counterexample. -/
theorem c10_weight_handling (w : List (String × ℚ)) :
    (|(w.map Prod.snd).sum - 1| ≤ 0.01 → weightHandling w = .ok (w, false))
    ∧ (0.01 < |(w.map Prod.snd).sum - 1| → (w.map Prod.snd).sum ≠ 0 →
        weightHandling w
          = .ok (w.map fun p => (p.1, p.2 / (w.map Prod.snd).sum), true)
        ∧ ((w.map fun p => (p.1, p.2 / (w.map Prod.snd).sum)).map Prod.snd).sum
          = 1) := by
  constructor
  · intro h
    unfold weightHandling
    rw [if_neg (not_lt.2 h)]
  · intro h hz
    constructor
    · unfold weightHandling
      rw [if_pos h, if_neg (fun hc => hz hc.1)]
    · rw [List.map_map]
      have h2 : ((Prod.snd ∘ fun p : String × ℚ => (p.1, p.2 / (w.map Prod.snd).sum))
          : String × ℚ → ℚ) = fun p => p.2 / (w.map Prod.snd).sum := rfl
      rw [h2]
      have h3 : (w.map fun p : String × ℚ => p.2 / (w.map Prod.snd).sum)
          = (w.map Prod.snd).map fun x => x / (w.map Prod.snd).sum := by
        rw [List.map_map]
        rfl
      rw [h3, sum_map_div]
      exact div_self hz

/-- C10 witness: the within-tolerance case at `{"A": 1}` (accepted
unchanged, no warning). -/
theorem c10_weight_handling_witness :
    (|(([("A", (1 : ℚ))]).map Prod.snd).sum - 1| ≤ 0.01)
    ∧ weightHandling [("A", (1 : ℚ))] = .ok ([("A", (1 : ℚ))], false) :=
  ⟨by norm_num, (c10_weight_handling [("A", (1 : ℚ))]).1 (by norm_num)⟩
